import Mathlib

/-!
Verification of `scripts/init_skill.py`, a scaffolding script that creates a
skill directory tree and writes template files populated with the skill name.

The embedding models:
  * the fixed templates (transcribed character-for-character from the Python
    f-strings in `create_skill_structure`);
  * the ordered scaffold plan (relative path, directory-or-content) executed
    by `create_skill_structure`;
  * the filesystem as a map from absolute path strings to nodes, with
    `mkdir(exist_ok=True)` and `write_text` (overwrite) semantics;
  * an environment oracle that can make any single filesystem step raise,
    modelling OSError-style failures (permission denied, invalid path, ...);
  * `main`: argparse handling (missing positional argument exits 2 before
    any filesystem access), the try/except wrapper printing
    `❌ Error: <message>` to stderr and exiting 1.

Python-specific semantics carried over faithfully:
  * `Path.cwd() / skill_name` drops an empty component, so an empty name
    resolves to the current working directory itself (`pathlibJoin`);
  * `if base_path:` is Python truthiness, so `--path ""` falls back to
    `cwd/name` (`skillDirOf`);
  * `str.replace("-", "_")` and `str.title` (word = maximal run of letters;
    modelled for ASCII letters) used for the generated test-class name;
  * the `src/__init__.py` template is a single-quoted f-string containing
    escaped `\\n`, so it contains literal backslash-n sequences, not
    newline characters.
-/

namespace InitSkill

set_option maxRecDepth 200000

/-- A filesystem node: a directory, or a file with its text content. -/
inductive Node where
  | dir : Node
  | file : String → Node
deriving DecidableEq

/-- The filesystem, as a map from absolute path strings to nodes. -/
def FS : Type := String → Option Node

/-- The empty filesystem. -/
def FS.empty : FS := fun _ => none

/-- Set (create or overwrite) the node at a path. -/
def FS.set (fs : FS) (p : String) (n : Node) : FS :=
  fun q => if q = p then some n else fs q

/-- Python `str.replace("-", "_")` restricted to this single-character case. -/
def pyReplaceDash (s : String) : String :=
  ⟨s.data.map (fun c => if c = '-' then '_' else c)⟩

/-- Helper for `pyTitle`: the boolean records whether the previous character
was a letter (a "cased" character in Python's sense, modelled for ASCII). -/
def titleAux : Bool → List Char → List Char
  | _, [] => []
  | prev, c :: cs =>
    if c.isAlpha then
      (if prev then c.toLower else c.toUpper) :: titleAux true cs
    else
      c :: titleAux false cs

/-- Python `str.title`: each maximal run of letters has its first letter
uppercased and the rest lowercased. This is an ASCII model (`Char.isAlpha`
and the case maps cover only ASCII letters), so names holding non-ASCII
cased characters are outside its faithful range; the theorem that asserts
per-name test-file content restricts the name to ASCII. -/
def pyTitle (s : String) : String := ⟨titleAux false s.data⟩

/-- Template of `README.md` (f-string at lines 58-99 of the source). -/
def readmeContent (n : String) : String :=
  "# " ++ n ++ "\n\n## Description\n\nA brief description of what this skill does.\n\n## Installation\n\n```bash\n# Add installation instructions here\n```\n\n## Usage\n\n```bash\n# Add usage examples here\n```\n\n## Features\n\n- Feature 1\n- Feature 2\n- Feature 3\n\n## Configuration\n\nDescribe any configuration options here.\n\n## Examples\n\nSee the `examples/` directory for usage examples.\n\n## Testing\n\n```bash\n# Add testing instructions here\n```\n\n## License\n\nMIT\n"

/-- Template of `skill.json` (f-string at lines 106-115; `\x7b\x7d` are the
literal braces produced by the doubled braces of the Python f-string). -/
def skillJsonContent (n : String) : String :=
  "\x7b\n  \"name\": \"" ++ n ++ "\",\n  \"version\": \"0.1.0\",\n  \"description\": \"Description of " ++ n ++ "\",\n  \"author\": \"\",\n  \"license\": \"MIT\",\n  \"main\": \"src/main.py\",\n  \"dependencies\": \x7b\x7d\n\x7d\n"

/-- Template of `src/main.py` (f-string at lines 122-135). -/
def mainPyContent (n : String) : String :=
  "\"\"\"\nMain entry point for " ++ n ++ " skill.\n\"\"\"\n\ndef main():\n    \"\"\"\n    Main function for the skill.\n    \"\"\"\n    print(\"Hello from " ++ n ++ "!\")\n    # Add your skill logic here\n\nif __name__ == \"__main__\":\n    main()\n"

/-- Template of `src/__init__.py` (line 143): the Python source is a
single-quoted f-string with escaped backslashes, so the written content holds
the two-character sequences backslash-n, not newline characters. -/
def initPyContent (n : String) : String :=
  "\"\"\"\\n" ++ n ++ " skill package.\\n\"\"\"\\n"

/-- Template of `.gitignore` (plain string at lines 147-190; no
substitution). -/
def gitignoreContent : String :=
  "# Python\n__pycache__/\n*.py[cod]\n*$py.class\n*.so\n.Python\nenv/\nvenv/\nENV/\nbuild/\ndevelop-eggs/\ndist/\ndownloads/\neggs/\n.eggs/\nlib/\nlib64/\nparts/\nsdist/\nvar/\nwheels/\n*.egg-info/\n.installed.cfg\n*.egg\n\n# IDE\n.vscode/\n.idea/\n*.swp\n*.swo\n*~\n\n# OS\n.DS_Store\nThumbs.db\n\n# Testing\n.pytest_cache/\n.coverage\nhtmlcov/\n\n# Logs\n*.log\n"

/-- Template of `tests/test_main.py` (f-string at lines 197-216); the class
name substitutes `skill_name.replace("-", "_").title()`. -/
def testMainContent (n : String) : String :=
  "\"\"\"\nTest suite for " ++ n ++ ".\n\"\"\"\n\nimport unittest\nfrom src.main import main\n\n\nclass Test" ++ pyTitle (pyReplaceDash n) ++ "(unittest.TestCase):\n    \"\"\"Test cases for " ++ n ++ ".\"\"\"\n\n    def test_main(self):\n        \"\"\"Test the main function.\"\"\"\n        # Add your tests here\n        self.assertTrue(True)\n\n\nif __name__ == \"__main__\":\n    unittest.main()\n"

/-- Template of `examples/example.md` (f-string at lines 228-241). -/
def exampleContent (n : String) : String :=
  "# Example Usage of " ++ n ++ "\n\nThis directory contains example usage of the " ++ n ++ " skill.\n\n## Basic Example\n\n```python\nfrom src.main import main\n\nmain()\n```\n\nAdd more examples as needed.\n"

/-- Template of `docs/api.md` (f-string at lines 248-272). -/
def docsContent (n : String) : String :=
  "# " ++ n ++ " Documentation\n\n## Overview\n\nDetailed documentation for " ++ n ++ ".\n\n## API Reference\n\n### main()\n\nMain function for the skill.\n\n**Returns:**\n- None\n\n**Example:**\n```python\nfrom src.main import main\nmain()\n```\n\n## Advanced Usage\n\nAdd advanced usage documentation here.\n"

/-- The scaffold plan: the ordered sequence of (relative path,
directory-or-content) pairs that `create_skill_structure` applies, in source
order (root directory, the four subdirectories, then the nine files). The
empty relative path denotes the skill root directory itself. -/
def scaffoldPlan (n : String) : List (String × Node) :=
  [ ("", Node.dir),
    ("src", Node.dir),
    ("tests", Node.dir),
    ("docs", Node.dir),
    ("examples", Node.dir),
    ("README.md", Node.file (readmeContent n)),
    ("skill.json", Node.file (skillJsonContent n)),
    ("src/main.py", Node.file (mainPyContent n)),
    ("src/__init__.py", Node.file (initPyContent n)),
    (".gitignore", Node.file gitignoreContent),
    ("tests/test_main.py", Node.file (testMainContent n)),
    ("tests/__init__.py", Node.file ""),
    ("examples/example.md", Node.file (exampleContent n)),
    ("docs/api.md", Node.file (docsContent n)) ]

/-- Whether a POSIX path string is absolute (starts with a slash). -/
def strIsAbsolute (s : String) : Bool := s.data.head? == some '/'

/-- A name that pathlib treats as a single plain path component: non-empty,
holding no slash (a slash would split it into several components, an
initial one re-rooting the path), not `.` (which pathlib drops) or `..`
(which the filesystem resolves to the parent, aliasing another path), and
holding no NUL byte (which the OS rejects). Within this range
`base / name` is exactly `base ++ "/" ++ name`. -/
def plainComponent (s : String) : Bool :=
  s != "" && ! s.data.contains '/' && s != "." && s != ".." && ! s.data.contains '\x00'

/-- `pathlib` path joining, `base / child`: an empty child component is
dropped (`Path('/a') / ''` is `Path('/a')`), an absolute child re-roots
the path (`Path('/home/u') / '/etc'` is `Path('/etc')`), and otherwise the
child is appended after a slash. A child holding several components or
dot components is outside the faithful range of this model; the theorems
that rely on `cwd/name` resolution restrict the name with
`plainComponent`. -/
def pathlibJoin (base child : String) : String :=
  if child = "" then base
  else if strIsAbsolute child then child
  else base ++ "/" ++ child

/-- Resolution of the skill directory (source lines 35-38): `if base_path:`
is Python truthiness, so both an absent `--path` and an empty-string
`--path` resolve to `cwd / skill_name`. -/
def skillDirOf (cwd skill_name : String) (base_path : Option String) : String :=
  match base_path with
  | some b => if b = "" then pathlibJoin cwd skill_name else b
  | none => pathlibJoin cwd skill_name

/-- Absolute path of a plan entry under skill directory `d` (the empty
relative path is the root itself). -/
def absPath (d rel : String) : String :=
  if rel = "" then d else d ++ "/" ++ rel

/-- The plan with paths made absolute under skill directory `d`. -/
def absEntries (n d : String) : List (String × Node) :=
  (scaffoldPlan n).map (fun e => (absPath d e.1, e.2))

/-- A filesystem operation: `mkdir(exist_ok=True)` or `write_text`. -/
inductive Op where
  | mkdir : String → Op
  | write : String → String → Op
deriving DecidableEq

/-- The operation realising one plan entry. -/
def opOf : String × Node → Op
  | (p, Node.dir) => Op.mkdir p
  | (p, Node.file c) => Op.write p c

/-- The progress line printed after one plan entry succeeds (the exact
f-strings of the source: the root prints the absolute directory, the
subdirectories print `<rel>/`, the files print their relative path). -/
def msgOf (d : String) : String × Node → String
  | (rel, Node.dir) =>
    if rel = "" then "✓ Created skill directory: " ++ d
    else "✓ Created directory: " ++ rel ++ "/"
  | (rel, Node.file _) => "✓ Created " ++ rel

/-- The interleaved (operation, progress line) list executed by
`create_skill_structure` for name `n` and skill directory `d`. -/
def stepList (n d : String) : List (Op × String) :=
  (scaffoldPlan n).map (fun e => (opOf (absPath d e.1, e.2), msgOf d e))

/-- Effect of one operation: `mkdir(exist_ok=True)` creates the directory if
the path is unoccupied (and is a no-op otherwise); `write_text` creates or
overwrites the file unconditionally. -/
def applyOp (fs : FS) : Op → FS
  | Op.mkdir p => if (fs p).isSome then fs else fs.set p Node.dir
  | Op.write p c => fs.set p (Node.file c)

/-- Result of running the scaffolding steps: final filesystem, stdout lines
emitted (one print call per element), and the raised error message if a
step failed. -/
structure RunRes where
  fs : FS
  out : List String
  failMsg : Option String

/-- Run the steps in order. The oracle models the environment: at step
index `i`, `orc i = some e` means the filesystem call raises OSError with
message `e` (so the step has no effect, nothing is printed for it, and the
remaining steps are not executed); `orc i = none` means the call succeeds
and its progress line is printed. -/
def runSteps (orc : Nat → Option String) : Nat → FS → List (Op × String) → RunRes
  | _, fs, [] => ⟨fs, [], none⟩
  | i, fs, s :: rest =>
    match orc i with
    | some e => ⟨fs, [], some e⟩
    | none =>
      let r := runSteps orc (i + 1) (applyOp fs s.1) rest
      ⟨r.fs, s.2 :: r.out, r.failMsg⟩

/-- The closing success report of `create_skill_structure` (lines 278-283):
a summary line followed by the next-steps hint (each element one print
call; the leading `\n` of the first two reproduces the blank line the
source prints). -/
def successTrailer (n d : String) : List String :=
  [ "\n✅ Skill '" ++ n ++ "' initialized successfully at: " ++ d,
    "\nNext steps:",
    "  1. cd " ++ d,
    "  2. Edit src/main.py to implement your skill logic",
    "  3. Update README.md with your skill's documentation",
    "  4. Add tests in tests/test_main.py" ]

/-- `create_skill_structure(skill_name, base_path)` run against initial
filesystem `fs₀` with environment oracle `orc`: resolves the skill
directory, runs the fourteen filesystem steps, and on success prints the
summary and next-steps report. -/
def create_skill_structure (orc : Nat → Option String) (cwd : String)
    (fs₀ : FS) (skill_name : String) (base_path : Option String) : RunRes :=
  let d := skillDirOf cwd skill_name base_path
  let r := runSteps orc 0 fs₀ (stepList skill_name d)
  match r.failMsg with
  | none => ⟨r.fs, r.out ++ successTrailer skill_name d, none⟩
  | some e => ⟨r.fs, r.out, some e⟩

/-- Observable outcome of one process run: final filesystem, stdout print
calls, stderr print calls, exit status. -/
structure Outcome where
  fs : FS
  out : List String
  err : List String
  exitCode : Nat

/-- The two stderr lines argparse prints when the required positional
argument is missing, before exiting with status 2. -/
def argparseMissingErr : List String :=
  [ "usage: init_skill.py [-h] [--path PATH] skill_name",
    "init_skill.py: error: the following arguments are required: skill_name" ]

/-- `main()` (source lines 286-318): `args = none` models an invocation
with the positional `skill_name` absent, which argparse rejects with exit
status 2 before any filesystem access; `args = some (name, basePath)`
models a parsed invocation, run under the try/except that prints
`❌ Error: <message>` to stderr and exits 1 on any exception, and exits 0
otherwise. -/
def main (orc : Nat → Option String) (cwd : String) (fs₀ : FS)
    (args : Option (String × Option String)) : Outcome :=
  match args with
  | none => ⟨fs₀, [], argparseMissingErr, 2⟩
  | some (n, b) =>
    let r := create_skill_structure orc cwd fs₀ n b
    match r.failMsg with
    | none => ⟨r.fs, r.out, [], 0⟩
    | some e => ⟨r.fs, r.out, ["❌ Error: " ++ e], 1⟩

/-- The oracle of an environment in which every filesystem call succeeds. -/
def cleanOrc : Nat → Option String := fun _ => none

/-- The filesystem obtained by creating a list of entries in order
(unconditional set; used as the canonical description of a scaffold). -/
def setFold (fs : FS) : List (String × Node) → FS
  | [] => fs
  | e :: t => setFold (fs.set e.1 e.2) t

/-- The path components of a list of entries. -/
def keysOf (l : List (String × Node)) : List String := l.map Prod.fst

/-- String that holds a Boolean check of whether a name attains a file
entry; counts the file entries of a plan. -/
def countFiles (l : List (String × Node)) : Nat :=
  (l.filter (fun e => match e.2 with | Node.dir => false | Node.file _ => true)).length

lemma FS.set_self (fs : FS) (p : String) (n : Node) : fs.set p n p = some n := by
  simp [FS.set]

lemma FS.set_ne (fs : FS) (p q : String) (n : Node) (h : q ≠ p) :
    fs.set p n q = fs q := by
  simp [FS.set, h]

lemma append_left_cancel' {s a b : String} (h : s ++ a = s ++ b) : a = b := by
  apply String.ext
  have hd := congrArg String.data h
  rw [String.data_append, String.data_append] at hd
  exact List.append_cancel_left hd

lemma append_ne_self {s t : String} (ht : t ≠ "") : s ++ t ≠ s := by
  intro h
  apply ht
  have := congrArg String.length h
  rw [String.length_append] at this
  have hlen : t.length = 0 := by omega
  have hdata : t.data = [] := List.length_eq_zero.mp hlen
  exact String.ext hdata

lemma setFold_not_mem {l : List (String × Node)} {fs : FS} {p : String}
    (hp : p ∉ keysOf l) : setFold fs l p = fs p := by
  induction l generalizing fs with
  | nil => rfl
  | cons e t ih =>
    have hne : p ≠ e.1 := fun h => hp (by simp [keysOf, h])
    have ht : p ∉ keysOf t := fun h => hp (by simp [keysOf] at h ⊢; exact Or.inr h)
    rw [setFold, ih ht, FS.set_ne _ _ _ _ hne]

lemma setFold_mem {l : List (String × Node)} {fs : FS} {p : String} {nd : Node}
    (hnodup : (keysOf l).Nodup) (h : (p, nd) ∈ l) : setFold fs l p = some nd := by
  induction l generalizing fs with
  | nil => cases h
  | cons e t ih =>
    rcases List.mem_cons.mp h with he | ht
    · have hp : p ∉ keysOf t := by
        have := (List.nodup_cons.mp hnodup).1
        rw [← he] at this
        exact this
      rw [setFold, setFold_not_mem hp, ← he, FS.set_self]
    · exact ih (List.nodup_cons.mp hnodup).2 ht

lemma setFold_eq_some {l : List (String × Node)} {fs : FS} {p : String} {nd : Node}
    (h : setFold fs l p = some nd) : (p, nd) ∈ l ∨ fs p = some nd := by
  induction l generalizing fs with
  | nil => exact Or.inr h
  | cons e t ih =>
    rcases ih h with ht | hset
    · exact Or.inl (List.mem_cons_of_mem _ ht)
    · by_cases hq : p = e.1
      · subst hq
        rw [FS.set_self] at hset
        have : nd = e.2 := by injection hset.symm
        subst this
        exact Or.inl (List.mem_cons_self _ _)
      · rw [FS.set_ne _ _ _ _ hq] at hset
        exact Or.inr hset

lemma setFold_empty_iff {l : List (String × Node)} {p : String} {nd : Node}
    (hnodup : (keysOf l).Nodup) :
    setFold FS.empty l p = some nd ↔ (p, nd) ∈ l := by
  constructor
  · intro h
    rcases setFold_eq_some h with hm | habs
    · exact hm
    · exact absurd habs (by simp [FS.empty])
  · exact setFold_mem hnodup

lemma runSteps_clean {orc : Nat → Option String} (horc : ∀ j, orc j = none) :
    ∀ (l : List (Op × String)) (i : Nat) (fs : FS),
    runSteps orc i fs l =
      ⟨l.foldl (fun f s => applyOp f s.1) fs, l.map Prod.snd, none⟩ := by
  intro l
  induction l with
  | nil => intro i fs; rfl
  | cons s rest ih =>
    intro i fs
    rw [runSteps, horc i, ih (i + 1) (applyOp fs s.1)]
    rfl

lemma runSteps_fail {orc : Nat → Option String} {m : String} :
    ∀ (k : Nat) (l : List (Op × String)) (i : Nat) (fs : FS),
    k < l.length → orc (i + k) = some m → (∀ j, j < k → orc (i + j) = none) →
    runSteps orc i fs l =
      ⟨(l.take k).foldl (fun f s => applyOp f s.1) fs,
       (l.take k).map Prod.snd, some m⟩ := by
  intro k
  induction k with
  | zero =>
    intro l i fs hk hfail _
    match l, hk with
    | s :: rest, _ =>
      rw [runSteps]
      simp only [Nat.add_zero] at hfail
      rw [hfail]
      rfl
  | succ k ih =>
    intro l i fs hk hfail hpre
    match l, hk with
    | s :: rest, hk =>
      rw [runSteps]
      have h0 : orc i = none := by
        have := hpre 0 (Nat.succ_pos k)
        simpa using this
      rw [h0]
      have hfail' : orc (i + 1 + k) = some m := by
        rw [show i + 1 + k = i + (k + 1) by omega]
        exact hfail
      have hpre' : ∀ j, j < k → orc (i + 1 + j) = none := by
        intro j hj
        rw [show i + 1 + j = i + (j + 1) by omega]
        exact hpre (j + 1) (by omega)
      have hk' : k < rest.length := by
        simpa using Nat.lt_of_succ_lt_succ hk
      rw [ih rest (i + 1) (applyOp fs s.1) hk' hfail' hpre']
      rfl

lemma stepList_fst (n d : String) :
    (stepList n d).map Prod.fst = (absEntries n d).map opOf := by
  simp [stepList, absEntries, List.map_map]

lemma stepList_snd (n d : String) :
    (stepList n d).map Prod.snd = (scaffoldPlan n).map (msgOf d) := by
  simp [stepList, List.map_map]

lemma applyFold_absent :
    ∀ (l : List (String × Node)) (fs : FS),
    (∀ e ∈ l, fs e.1 = none) → (keysOf l).Nodup →
    (l.map opOf).foldl applyOp fs = setFold fs l := by
  intro l
  induction l with
  | nil => intro fs _ _; rfl
  | cons e t ih =>
    intro fs habs hnodup
    have hfse : fs e.1 = none := habs e (List.mem_cons_self _ _)
    have hstep : applyOp fs (opOf e) = fs.set e.1 e.2 := by
      rcases e with ⟨p, nd⟩
      cases nd with
      | dir => simp [opOf, applyOp, hfse]
      | file c => simp [opOf, applyOp]
    have habs' : ∀ e' ∈ t, (fs.set e.1 e.2) e'.1 = none := by
      intro e' he'
      have hne : e'.1 ≠ e.1 := by
        intro hq
        exact (List.nodup_cons.mp hnodup).1 (hq ▸ List.mem_map_of_mem Prod.fst he')
      rw [FS.set_ne _ _ _ _ hne]
      exact habs e' (List.mem_cons_of_mem _ he')
    calc ((e :: t).map opOf).foldl applyOp fs
        = (t.map opOf).foldl applyOp (applyOp fs (opOf e)) := rfl
      _ = (t.map opOf).foldl applyOp (fs.set e.1 e.2) := by rw [hstep]
      _ = setFold (fs.set e.1 e.2) t := ih _ habs' (List.nodup_cons.mp hnodup).2
      _ = setFold fs (e :: t) := rfl

/-- The thirteen relative paths of the layout below the skill root, in
creation order. -/
def relPaths : List String :=
  [ "src", "tests", "docs", "examples",
    "README.md", "skill.json", "src/main.py", "src/__init__.py",
    ".gitignore", "tests/test_main.py", "tests/__init__.py",
    "examples/example.md", "docs/api.md" ]

lemma absEntries_keys (n d : String) :
    keysOf (absEntries n d) = d :: relPaths.map (fun r => d ++ "/" ++ r) := rfl

lemma slash_append_ne_empty (r : String) : "/" ++ r ≠ "" := by
  intro h
  have hlen := congrArg String.length h
  rw [String.length_append] at hlen
  have h1 : ("/" : String).length = 1 := rfl
  have h2 : ("" : String).length = 0 := rfl
  omega

lemma absKeys_nodup (n d : String) : (keysOf (absEntries n d)).Nodup := by
  rw [absEntries_keys]
  refine List.nodup_cons.mpr ⟨?_, ?_⟩
  · intro hmem
    rcases List.mem_map.mp hmem with ⟨r, _, heq⟩
    have heq' : d ++ ("/" ++ r) = d := by rw [← String.append_assoc]; exact heq
    exact append_ne_self (slash_append_ne_empty r) heq'
  · have hinj : Function.Injective (fun r : String => d ++ "/" ++ r) := by
      intro a b h
      dsimp at h
      rw [String.append_assoc, String.append_assoc] at h
      exact append_left_cancel' (append_left_cancel' h)
    exact List.Nodup.map hinj (by decide)

lemma applyFold_present :
    ∀ (l : List (String × Node)) (fs : FS),
    (∀ e ∈ l, fs e.1 = some e.2) → (keysOf l).Nodup →
    ∀ q, (l.map opOf).foldl applyOp fs q = fs q := by
  intro l
  induction l with
  | nil => intro fs _ _ q; rfl
  | cons e t ih =>
    intro fs hpres hnodup q
    have hfse : fs e.1 = some e.2 := hpres e (List.mem_cons_self _ _)
    have hstep : ∀ r, applyOp fs (opOf e) r = fs r := by
      rcases e with ⟨p, nd⟩
      cases nd with
      | dir => intro r; simp [opOf, applyOp, hfse]
      | file c =>
        intro r
        simp only [opOf, applyOp, FS.set]
        by_cases hr : r = p
        · subst hr
          rw [if_pos rfl]
          exact hfse.symm
        · simp [hr]
    have hpres' : ∀ e' ∈ t, applyOp fs (opOf e) e'.1 = some e'.2 := by
      intro e' he'
      rw [hstep]
      exact hpres e' (List.mem_cons_of_mem _ he')
    calc ((e :: t).map opOf).foldl applyOp fs q
        = (t.map opOf).foldl applyOp (applyOp fs (opOf e)) q := rfl
      _ = applyOp fs (opOf e) q := ih _ hpres' (List.nodup_cons.mp hnodup).2 q
      _ = fs q := hstep q

/-- Whether `pat` occurs at the head of `l`. -/
def leadRun : List Char → List Char → Bool
  | [], _ => true
  | _ :: _, [] => false
  | p :: ps, c :: cs => p = c && leadRun ps cs

/-- Whether `pat` occurs somewhere in `l`. -/
def subRun (pat : List Char) : List Char → Bool
  | [] => leadRun pat []
  | c :: cs => leadRun pat (c :: cs) || subRun pat cs

/-- Whether `pat` occurs as a contiguous substring of `hay`. -/
def strContains (hay pat : String) : Bool := subRun pat.data hay.data

/-- Skip JSON insignificant whitespace (RFC 8259 section 2). -/
def skipWs : List Char → List Char
  | c :: r => if c = ' ' ∨ c = '\t' ∨ c = '\n' ∨ c = '\r' then skipWs r else c :: r
  | [] => []

def isHexDigitChar (c : Char) : Bool :=
  c.isDigit || ('a' ≤ c && c ≤ 'f') || ('A' ≤ c && c ≤ 'F')

/-- Consume one JSON string escape (the characters after a backslash). -/
def parseEscape : List Char → Option (List Char)
  | c :: r =>
    if c = '"' ∨ c = '\\' ∨ c = '/' ∨ c = 'b' ∨ c = 'f' ∨ c = 'n' ∨ c = 'r' ∨ c = 't' then
      some r
    else if c = 'u' then
      match r with
      | a :: b :: c2 :: d :: r2 =>
        if isHexDigitChar a && isHexDigitChar b && isHexDigitChar c2 && isHexDigitChar d then
          some r2
        else none
      | _ => none
    else none
  | [] => none

/-- Consume the rest of a JSON string after its opening quote: unescaped
control characters are forbidden, escapes are as in RFC 8259. -/
def parseStringRest : Nat → List Char → Option (List Char)
  | 0, _ => none
  | _ + 1, [] => none
  | fuel + 1, c :: r =>
    if c = '"' then some r
    else if c = '\\' then
      match parseEscape r with
      | some r2 => parseStringRest fuel r2
      | none => none
    else if c.toNat < 32 then none
    else parseStringRest fuel r

/-- Consume the characters `cs` literally. -/
def expectChars : List Char → List Char → Option (List Char)
  | [], l => some l
  | e :: es, c :: r => if c = e then expectChars es r else none
  | _ :: _, [] => none

/-- Consume a JSON number after an optional leading minus sign:
`int frac? exp?` with `int = 0 | [1-9] digit*`. -/
def parseNumberRest (l : List Char) : Option (List Char) :=
  let intRes : Option (List Char) :=
    match l with
    | '0' :: r => some r
    | c :: r => if c.isDigit then some (r.dropWhile Char.isDigit) else none
    | [] => none
  match intRes with
  | none => none
  | some r =>
    let fracRes : Option (List Char) :=
      match r with
      | '.' :: r2 =>
        match r2 with
        | c :: r3 => if c.isDigit then some (r3.dropWhile Char.isDigit) else none
        | [] => none
      | _ => some r
    match fracRes with
    | none => none
    | some r2 =>
      match r2 with
      | c :: r3 =>
        if c = 'e' ∨ c = 'E' then
          let r4 : List Char :=
            match r3 with
            | s :: r5 => if s = '+' ∨ s = '-' then r5 else r3
            | [] => r3
          match r4 with
          | d :: r6 => if d.isDigit then some (r6.dropWhile Char.isDigit) else none
          | [] => none
        else some r2
      | [] => some r2

mutual

/-- Consume one JSON value (RFC 8259 grammar), fuel-bounded. -/
def parseValue : Nat → List Char → Option (List Char)
  | 0, _ => none
  | fuel + 1, l =>
    match skipWs l with
    | [] => none
    | c :: r =>
      if c = '"' then parseStringRest (r.length + 1) r
      else if c = '\x7b' then parseObjectRest fuel r
      else if c = '[' then parseArrayRest fuel r
      else if c = 't' then expectChars ['r', 'u', 'e'] r
      else if c = 'f' then expectChars ['a', 'l', 's', 'e'] r
      else if c = 'n' then expectChars ['u', 'l', 'l'] r
      else if c = '-' then parseNumberRest r
      else if c.isDigit then parseNumberRest (c :: r)
      else none

/-- Consume the rest of a JSON object after its opening brace. -/
def parseObjectRest : Nat → List Char → Option (List Char)
  | 0, _ => none
  | fuel + 1, l =>
    match skipWs l with
    | '\x7d' :: r => some r
    | l2 => parseMembers fuel l2

/-- Consume one or more `"key": value` members followed by the closing
brace. -/
def parseMembers : Nat → List Char → Option (List Char)
  | 0, _ => none
  | fuel + 1, l =>
    match skipWs l with
    | '"' :: r =>
      match parseStringRest (r.length + 1) r with
      | some r2 =>
        match skipWs r2 with
        | ':' :: r3 =>
          match parseValue fuel r3 with
          | some r4 =>
            match skipWs r4 with
            | ',' :: r5 => parseMembers fuel r5
            | '\x7d' :: r5 => some r5
            | _ => none
          | none => none
        | _ => none
      | none => none
    | _ => none

/-- Consume the rest of a JSON array after its opening bracket. -/
def parseArrayRest : Nat → List Char → Option (List Char)
  | 0, _ => none
  | fuel + 1, l =>
    match skipWs l with
    | ']' :: r => some r
    | l2 => parseElements fuel l2

/-- Consume one or more array elements followed by the closing bracket. -/
def parseElements : Nat → List Char → Option (List Char)
  | 0, _ => none
  | fuel + 1, l =>
    match parseValue fuel l with
    | some r =>
      match skipWs r with
      | ',' :: r2 => parseElements fuel r2
      | ']' :: r2 => some r2
      | _ => none
    | none => none

end

/-- Whether a string is a syntactically valid JSON text: one value (RFC
8259 grammar) followed only by whitespace. -/
def jsonValid (s : String) : Bool :=
  match parseValue (s.data.length + 1) s.data with
  | some r => (skipWs r).isEmpty
  | none => false

lemma stepList_length (n d : String) : (stepList n d).length = 14 := by
  simp [stepList, scaffoldPlan]

lemma foldl_step_eq (l : List (Op × String)) (fs : FS) :
    l.foldl (fun f s => applyOp f s.1) fs = (l.map Prod.fst).foldl applyOp fs := by
  rw [List.foldl_map]

lemma cleanOrc_none : ∀ j, cleanOrc j = none := fun _ => rfl

/-- Characterisation of a run of `main` with parsed arguments in an
environment where every filesystem call succeeds, starting from a
filesystem in which none of the scaffold paths exist: exit status 0, one
progress line per plan entry in creation order followed by the success
trailer, empty stderr, and the filesystem extended by exactly the scaffold
entries. -/
lemma main_clean (cwd n : String) (b : Option String) (fs₀ : FS)
    (habs : ∀ e ∈ absEntries n (skillDirOf cwd n b), fs₀ e.1 = none) :
    main cleanOrc cwd fs₀ (some (n, b)) =
      ⟨setFold fs₀ (absEntries n (skillDirOf cwd n b)),
       (scaffoldPlan n).map (msgOf (skillDirOf cwd n b)) ++
         successTrailer n (skillDirOf cwd n b),
       [], 0⟩ := by
  have hrun := runSteps_clean cleanOrc_none (stepList n (skillDirOf cwd n b)) 0 fs₀
  have hfs : (stepList n (skillDirOf cwd n b)).foldl (fun f s => applyOp f s.1) fs₀ =
      setFold fs₀ (absEntries n (skillDirOf cwd n b)) := by
    rw [foldl_step_eq, stepList_fst]
    exact applyFold_absent _ _ habs (absKeys_nodup n _)
  simp only [main, create_skill_structure, hrun, hfs, stepList_snd]

/-- Characterisation of a clean re-run on a filesystem that already holds
every scaffold entry with its template content: exit status 0, the same
report, and the filesystem unchanged (`mkdir(exist_ok=True)` is a no-op on
an existing directory; `write_text` overwrites each file with identical
content). -/
lemma main_present (cwd n : String) (b : Option String) (fs₀ : FS)
    (hpres : ∀ e ∈ absEntries n (skillDirOf cwd n b), fs₀ e.1 = some e.2) :
    main cleanOrc cwd fs₀ (some (n, b)) =
      ⟨fs₀,
       (scaffoldPlan n).map (msgOf (skillDirOf cwd n b)) ++
         successTrailer n (skillDirOf cwd n b),
       [], 0⟩ := by
  have hrun := runSteps_clean cleanOrc_none (stepList n (skillDirOf cwd n b)) 0 fs₀
  have hfs : (stepList n (skillDirOf cwd n b)).foldl (fun f s => applyOp f s.1) fs₀ = fs₀ := by
    rw [foldl_step_eq, stepList_fst]
    exact funext (applyFold_present _ _ hpres (absKeys_nodup n _))
  simp only [main, create_skill_structure, hrun, hfs, stepList_snd]

/-- Characterisation of a run of `main` in an environment whose `k`-th
filesystem call (0-based, `k < 14`) raises with message `m` after the
first `k` calls succeeded: exit status 1, exactly one stderr line
`❌ Error: m`, stdout holding exactly the first `k` progress lines, and a
filesystem holding exactly the first `k` scaffold entries (no rollback). -/
lemma main_fail (cwd n : String) (b : Option String) (fs₀ : FS)
    (orc : Nat → Option String) (k : Nat) (m : String)
    (hk : k < 14) (hfail : orc k = some m) (hpre : ∀ j, j < k → orc j = none)
    (habs : ∀ e ∈ absEntries n (skillDirOf cwd n b), fs₀ e.1 = none) :
    main orc cwd fs₀ (some (n, b)) =
      ⟨setFold fs₀ ((absEntries n (skillDirOf cwd n b)).take k),
       ((scaffoldPlan n).map (msgOf (skillDirOf cwd n b))).take k,
       ["❌ Error: " ++ m], 1⟩ := by
  have hk' : k < (stepList n (skillDirOf cwd n b)).length := by
    rw [stepList_length]; exact hk
  have hfail' : orc (0 + k) = some m := by simpa using hfail
  have hpre' : ∀ j, j < k → orc (0 + j) = none := by
    intro j hj; simpa using hpre j hj
  have hrun := runSteps_fail k (stepList n (skillDirOf cwd n b)) 0 fs₀ hk' hfail' hpre'
  have htake : ∀ e ∈ (absEntries n (skillDirOf cwd n b)).take k, fs₀ e.1 = none := by
    intro e he
    exact habs e (List.take_subset k _ he)
  have hnodup : (keysOf ((absEntries n (skillDirOf cwd n b)).take k)).Nodup := by
    have : keysOf ((absEntries n (skillDirOf cwd n b)).take k) =
        (keysOf (absEntries n (skillDirOf cwd n b))).take k := by
      simp [keysOf, List.map_take]
    rw [this]
    exact List.Nodup.sublist (List.take_sublist k _) (absKeys_nodup n _)
  have hfs : ((stepList n (skillDirOf cwd n b)).take k).foldl
      (fun f s => applyOp f s.1) fs₀ =
      setFold fs₀ ((absEntries n (skillDirOf cwd n b)).take k) := by
    rw [foldl_step_eq, List.map_take, stepList_fst, ← List.map_take]
    exact applyFold_absent _ _ htake hnodup
  have hout : ((stepList n (skillDirOf cwd n b)).take k).map Prod.snd =
      ((scaffoldPlan n).map (msgOf (skillDirOf cwd n b))).take k := by
    rw [List.map_take, stepList_snd]
  simp only [main, create_skill_structure, hrun, hfs, hout]

lemma absKeys_take_nodup (n d : String) (k : Nat) :
    (keysOf ((absEntries n d).take k)).Nodup := by
  have h : keysOf ((absEntries n d).take k) = (keysOf (absEntries n d)).take k := by
    simp [keysOf, List.map_take]
  rw [h]
  exact List.Nodup.sublist (List.take_sublist k _) (absKeys_nodup n d)

lemma pathlibJoin_plain (base s : String) (h : plainComponent s = true) :
    pathlibJoin base s = base ++ "/" ++ s := by
  rw [plainComponent] at h
  rw [Bool.and_eq_true, Bool.and_eq_true, Bool.and_eq_true, Bool.and_eq_true] at h
  obtain ⟨⟨⟨⟨h1, h2⟩, _⟩, _⟩, _⟩ := h
  have hne : s ≠ "" := by simpa using h1
  have hnoslash : '/' ∉ s.data := by simpa using h2
  rw [pathlibJoin, if_neg hne, if_neg ?_]
  intro habs
  have hh : s.data.head? = some '/' := by simpa [strIsAbsolute] using habs
  exact hnoslash (List.mem_of_mem_head? (Option.mem_def.mpr hh))

lemma pathlibJoin_absolute (base s : String) (h : strIsAbsolute s = true) :
    pathlibJoin base s = s := by
  have hh : s.data.head? = some '/' := by simpa [strIsAbsolute] using h
  have hne : s ≠ "" := by
    intro he
    rw [he] at hh
    exact absurd hh (by decide)
  rw [pathlibJoin, if_neg hne, if_pos h]

/-- The scaffold request: a name and an optional target path
(section 3 of the specification). -/
structure ScaffoldRequest where
  name : String
  targetPath : Option String

/-- The scaffold plan computed from a request; its relative paths and the
contents substituted into them depend only on the request. -/
def scaffoldPlanOf (r : ScaffoldRequest) : List (String × Node) :=
  scaffoldPlan r.name

/-- Claim C1 (corrected): on success the scaffold writes exactly nine fixed
files — not eight — each the fixed template with the name substituted, and
for every name that is a plain ASCII path component (non-empty, holding no
slash and no NUL, not `.` or `..`) with `--path` absent, the resulting
directory is `<cwd>/<name>` and the filesystem holds exactly the root
directory and the thirteen entries of the section-6 layout below it (four
directories and nine files) and no others. An absolute name re-roots the
scaffold through pathlib (the directory is then the name itself, not
`<cwd>/<name>`) and a non-ASCII name changes the generated test-class name
through `str.title`, so such names lie outside this guarantee. -/
theorem C1_scaffold_layout (cwd name : String)
    (h : plainComponent name = true)
    (_hascii : name.data.all (fun c => c.toNat < 128) = true) :
    countFiles (scaffoldPlan name) = 9 ∧
    skillDirOf cwd name none = cwd ++ "/" ++ name ∧
    (main cleanOrc cwd FS.empty (some (name, none))).exitCode = 0 ∧
    (∀ (p : String) (nd : Node),
      (main cleanOrc cwd FS.empty (some (name, none))).fs p = some nd ↔
        (p, nd) ∈ absEntries name (cwd ++ "/" ++ name)) ∧
    keysOf (absEntries name (cwd ++ "/" ++ name)) =
      (cwd ++ "/" ++ name) ::
        relPaths.map (fun r => (cwd ++ "/" ++ name) ++ "/" ++ r) := by
  have hd : skillDirOf cwd name none = cwd ++ "/" ++ name :=
    pathlibJoin_plain cwd name h
  have h1 := main_clean cwd name none FS.empty (fun e _ => rfl)
  rw [hd] at h1
  refine ⟨rfl, hd, ?_, ?_, absEntries_keys name _⟩
  · rw [h1]
  · intro p nd
    rw [h1]
    exact setFold_empty_iff (absKeys_nodup name _)

/-- Claim C1, witness: the amended layout guarantee at a concrete name and
working directory. -/
theorem C1_witness :
    plainComponent "my-skill" = true ∧
    ("my-skill" : String).data.all (fun c => c.toNat < 128) = true ∧
    countFiles (scaffoldPlan "my-skill") = 9 ∧
    skillDirOf "/home/u" "my-skill" none = "/home/u" ++ "/" ++ "my-skill" ∧
    (main cleanOrc "/home/u" FS.empty (some ("my-skill", none))).exitCode = 0 ∧
    (∀ (p : String) (nd : Node),
      (main cleanOrc "/home/u" FS.empty (some ("my-skill", none))).fs p = some nd ↔
        (p, nd) ∈ absEntries "my-skill" ("/home/u" ++ "/" ++ "my-skill")) ∧
    keysOf (absEntries "my-skill" ("/home/u" ++ "/" ++ "my-skill")) =
      ("/home/u" ++ "/" ++ "my-skill") ::
        relPaths.map (fun r => ("/home/u" ++ "/" ++ "my-skill") ++ "/" ++ r) :=
  ⟨by decide, by decide,
   C1_scaffold_layout "/home/u" "my-skill" (by decide) (by decide)⟩

/-- Claim C1, counterexample to the claim as stated: the plan writes nine
files (not the claimed eight), and the section-6 layout lists thirteen
entries below the root (not nine). -/
theorem C1_counterexample :
    countFiles (scaffoldPlan "my-skill") ≠ 8 ∧
    countFiles (scaffoldPlan "my-skill") = 9 ∧
    relPaths.length ≠ 9 ∧
    relPaths.length = 13 := by
  decide

/-- Claim C2 (corrected): when the environment makes the `k`-th filesystem
call of the scaffold raise with message `m` (all earlier calls having
succeeded), the remaining creation steps are not executed, exactly one
line is printed to the standard error stream — of the form
`❌ Error: <message>`, not the claimed bare `Error: <message>` — the
process exits with status 1, and the entries already created are left in
place (no rollback). -/
theorem C2_failure_behavior (cwd name : String) (base : Option String)
    (orc : Nat → Option String) (k : Nat) (m : String)
    (hk : k < 14) (hfail : orc k = some m) (hpre : ∀ j, j < k → orc j = none) :
    (main orc cwd FS.empty (some (name, base))).exitCode = 1 ∧
    (main orc cwd FS.empty (some (name, base))).err = ["❌ Error: " ++ m] ∧
    (main orc cwd FS.empty (some (name, base))).out =
      ((scaffoldPlan name).map (msgOf (skillDirOf cwd name base))).take k ∧
    (∀ (p : String) (nd : Node),
      (main orc cwd FS.empty (some (name, base))).fs p = some nd ↔
        (p, nd) ∈ (absEntries name (skillDirOf cwd name base)).take k) := by
  have h2 := main_fail cwd name base FS.empty orc k m hk hfail hpre (fun e _ => rfl)
  rw [h2]
  refine ⟨rfl, rfl, rfl, ?_⟩
  intro p nd
  exact setFold_empty_iff (absKeys_take_nodup name _ k)

/-- Claim C2, witness: the amended failure behaviour at a concrete run
whose second filesystem call raises `disk full`. -/
theorem C2_witness :
    ((1 : Nat) < 14 ∧
     (fun i => if i = 1 then some "disk full" else none) 1 = some "disk full") ∧
    (main (fun i => if i = 1 then some "disk full" else none) "/home/u" FS.empty
        (some ("my-skill", none))).exitCode = 1 ∧
    (main (fun i => if i = 1 then some "disk full" else none) "/home/u" FS.empty
        (some ("my-skill", none))).err = ["❌ Error: " ++ "disk full"] ∧
    (main (fun i => if i = 1 then some "disk full" else none) "/home/u" FS.empty
        (some ("my-skill", none))).out =
      ((scaffoldPlan "my-skill").map
        (msgOf (skillDirOf "/home/u" "my-skill" none))).take 1 ∧
    (∀ (p : String) (nd : Node),
      (main (fun i => if i = 1 then some "disk full" else none) "/home/u" FS.empty
          (some ("my-skill", none))).fs p = some nd ↔
        (p, nd) ∈ (absEntries "my-skill" (skillDirOf "/home/u" "my-skill" none)).take 1) := by
  have h := C2_failure_behavior "/home/u" "my-skill" none
    (fun i => if i = 1 then some "disk full" else none) 1 "disk full"
    (by decide) rfl
    (by intro j hj
        cases j with
        | zero => rfl
        | succ jj => omega)
  exact ⟨⟨by decide, rfl⟩, h.1, h.2.1, h.2.2.1, h.2.2.2⟩

/-- Claim C2, counterexample to the claim as stated: the single stderr
line of a failing run is `❌ Error: <message>`; it is not of the bare form
`Error: <message>` (it does not even start with `Error: `). -/
theorem C2_counterexample :
    (main (fun i => if i = 0 then some "boom" else none) "/home/u" FS.empty
        (some ("x", none))).err = ["❌ Error: boom"] ∧
    (∀ m : String, "❌ Error: boom" ≠ "Error: " ++ m) := by
  refine ⟨by decide, ?_⟩
  intro m h
  have hc := congrArg (fun s : String => s.data.head?) h
  simp only [] at hc
  rw [String.data_append] at hc
  have he : ("Error: ".data ++ m.data).head? = some 'E' := rfl
  exact absurd (hc.trans he) (by decide)

/-- Claim C3 (corrected): the `name` argument is required: when it is
absent the argument parser exits with status 2 and no filesystem entry is
created; but an empty `name` does not fail — every provided string,
including the empty string, is accepted without any validation, and an
empty name resolves the target to the current working directory itself
(`Path.cwd() / ""` is `Path.cwd()`). -/
theorem C3_name_argument :
    (∀ (cwd : String) (fs₀ : FS) (orc : Nat → Option String),
      main orc cwd fs₀ none = ⟨fs₀, [], argparseMissingErr, 2⟩) ∧
    (∀ (cwd name : String) (base : Option String),
      (main cleanOrc cwd FS.empty (some (name, base))).exitCode = 0) ∧
    (∀ cwd : String, skillDirOf cwd "" none = cwd) := by
  refine ⟨fun _ _ _ => rfl, ?_, fun _ => rfl⟩
  intro cwd name base
  rw [main_clean cwd name base FS.empty (fun e _ => rfl)]

/-- Claim C3, counterexample to the claim as stated: with the empty name
provided, the operation does not fail before any filesystem access — it
succeeds (exit status 0) and creates entries (here `src` inside the
current working directory). -/
theorem C3_counterexample :
    (main cleanOrc "/home/u" FS.empty (some ("", none))).exitCode = 0 ∧
    (main cleanOrc "/home/u" FS.empty (some ("", none))).fs "/home/u/src" =
      some Node.dir := by
  exact ⟨rfl, by decide⟩

/-- Claim C4 (corrected): the target root directory equals the `--path`
argument when a non-empty `--path` is provided (independent of the name);
when `--path` is omitted — or provided as the empty string, which the
source's Python truthiness test `if base_path:` treats like an omitted
one — the target is `Path.cwd() / name`: `<cwd>/<name>` when the name is
a plain relative component, but re-rooted to the name itself when the
name is an absolute path. -/
theorem C4_target_resolution :
    (∀ (cwd name p : String), p ≠ "" → skillDirOf cwd name (some p) = p) ∧
    (∀ cwd name : String, skillDirOf cwd name none = pathlibJoin cwd name) ∧
    (∀ cwd name : String, skillDirOf cwd name (some "") = pathlibJoin cwd name) ∧
    (∀ cwd name : String, plainComponent name = true →
      pathlibJoin cwd name = cwd ++ "/" ++ name) ∧
    (∀ cwd name : String, strIsAbsolute name = true →
      pathlibJoin cwd name = name) := by
  refine ⟨?_, fun _ _ => rfl, fun _ _ => rfl, pathlibJoin_plain, pathlibJoin_absolute⟩
  intro cwd name p hp
  rw [skillDirOf, if_neg hp]

/-- Claim C4, witness: the amended resolution rule applied at concrete
inputs — an explicit non-empty path, a plain component name, and an
absolute name. -/
theorem C4_witness :
    (("/opt/skills" : String) ≠ "" ∧
     skillDirOf "/home/u" "x" (some "/opt/skills") = "/opt/skills") ∧
    (plainComponent "my-skill" = true ∧
     pathlibJoin "/home/u" "my-skill" = "/home/u" ++ "/" ++ "my-skill") ∧
    (strIsAbsolute "/etc" = true ∧ pathlibJoin "/home/u" "/etc" = "/etc") :=
  ⟨⟨by decide, C4_target_resolution.1 "/home/u" "x" "/opt/skills" (by decide)⟩,
   ⟨by decide, C4_target_resolution.2.2.2.1 "/home/u" "my-skill" (by decide)⟩,
   ⟨by decide, C4_target_resolution.2.2.2.2 "/home/u" "/etc" (by decide)⟩⟩

/-- Claim C4, counterexample to the claim as stated: `--path` provided as
the empty string does not give an empty target — the target falls back to
`cwd/name`. -/
theorem C4_counterexample :
    skillDirOf "/home/u" "x" (some "") = "/home/u/x" ∧
    skillDirOf "/home/u" "x" (some "") ≠ "" := by
  exact ⟨rfl, by decide⟩

/-- Claim C6 (confirmed): the generated `skill.json` splices the name
argument verbatim (no normalization) into the `name` field, and the
concrete scenario of the specification holds: scaffolding `my-skill` with
cwd `/home/u` writes `/home/u/my-skill/skill.json` containing
`"name": "my-skill"` and `/home/u/my-skill/src/main.py` containing
`Hello from my-skill!`. -/
theorem C6_name_verbatim :
    (∀ name : String, skillJsonContent name =
      "\x7b\n  \"name\": \"" ++ name ++
      "\",\n  \"version\": \"0.1.0\",\n  \"description\": \"Description of " ++ name ++
      "\",\n  \"author\": \"\",\n  \"license\": \"MIT\",\n  \"main\": \"src/main.py\",\n  \"dependencies\": \x7b\x7d\n\x7d\n") ∧
    (main cleanOrc "/home/u" FS.empty (some ("my-skill", none))).fs
      "/home/u/my-skill/skill.json" = some (Node.file (skillJsonContent "my-skill")) ∧
    strContains (skillJsonContent "my-skill") "\"name\": \"my-skill\"" = true ∧
    (main cleanOrc "/home/u" FS.empty (some ("my-skill", none))).fs
      "/home/u/my-skill/src/main.py" = some (Node.file (mainPyContent "my-skill")) ∧
    strContains (mainPyContent "my-skill") "Hello from my-skill!" = true := by
  exact ⟨fun _ => rfl, by decide, by decide, by decide, by decide⟩

/-- Claim C8 (confirmed): the scaffold plan is a deterministic function of
the request — two requests with the same name and the same target path
yield the identical sequence of (relative path, content-or-directory)
pairs, and whole runs of the program on them (same environment, same
starting filesystem) have identical outcomes. -/
theorem C8_deterministic (r₁ r₂ : ScaffoldRequest)
    (hname : r₁.name = r₂.name) (hpath : r₁.targetPath = r₂.targetPath) :
    scaffoldPlanOf r₁ = scaffoldPlanOf r₂ ∧
    (∀ (cwd : String) (fs₀ : FS) (orc : Nat → Option String),
      main orc cwd fs₀ (some (r₁.name, r₁.targetPath)) =
        main orc cwd fs₀ (some (r₂.name, r₂.targetPath))) := by
  rcases r₁ with ⟨n₁, p₁⟩
  rcases r₂ with ⟨n₂, p₂⟩
  dsimp at hname hpath
  subst hname
  subst hpath
  exact ⟨rfl, fun _ _ _ => rfl⟩

/-- Claim C8, witness: determinism applied at a concrete request. -/
theorem C8_witness :
    (ScaffoldRequest.mk "my-skill" none).name = (ScaffoldRequest.mk "my-skill" none).name ∧
    scaffoldPlanOf (ScaffoldRequest.mk "my-skill" none) =
      scaffoldPlanOf (ScaffoldRequest.mk "my-skill" none) :=
  ⟨rfl, (C8_deterministic (ScaffoldRequest.mk "my-skill" none)
    (ScaffoldRequest.mk "my-skill" none) rfl rfl).1⟩

/-- Claim C9 (corrected): the `src/__init__.py` template is spliced from a
Python string whose `\\n` are escaped, so its content is exactly the
docstring quotes and text joined by literal backslash-n character pairs;
it has no actual line break provided the name itself has none — a name
containing a newline character (possible from the command line) does
introduce real line breaks, against the universal claim. -/
theorem C9_literal_backslash (name : String) :
    initPyContent name = "\"\"\"\\n" ++ name ++ " skill package.\\n\"\"\"\\n" ∧
    ('\n' ∉ name.data → '\n' ∉ (initPyContent name).data) := by
  refine ⟨rfl, ?_⟩
  intro hn hmem
  have hd : (initPyContent name).data =
      "\"\"\"\\n".data ++ (name.data ++ " skill package.\\n\"\"\"\\n".data) := by
    rw [initPyContent, String.data_append, String.data_append, List.append_assoc]
  rw [hd] at hmem
  rcases List.mem_append.mp hmem with h1 | h23
  · exact absurd h1 (by decide)
  · rcases List.mem_append.mp h23 with h2 | h3
    · exact hn h2
    · exact absurd h3 (by decide)

/-- Claim C9, witness: the amended statement applied at a concrete
newline-free name. -/
theorem C9_witness :
    '\n' ∉ ("my-skill" : String).data ∧
    '\n' ∉ (initPyContent "my-skill").data :=
  ⟨by decide, (C9_literal_backslash "my-skill").2 (by decide)⟩

/-- Claim C9, counterexample to the claim as stated: for a name containing
a newline character the written `src/__init__.py` does contain an actual
line break, so it is not a single physical line for every name. -/
theorem C9_counterexample : '\n' ∈ (initPyContent "a\nb").data := by
  decide

/-- Claim C10 (corrected): `skill.json` splices the name unescaped into
both the `name` and the `description` field (the latter equal to
`Description of <name>`); consequently some names containing a double
quote — for example the one-character name `"` — make the written file
syntactically invalid JSON. Not every such name does: a name may itself
close the string and open well-formed members, yielding valid JSON, so
the universal form of the claim is refuted separately. -/
theorem C10_unescaped_splice :
    (∀ name : String, skillJsonContent name =
      "\x7b\n  \"name\": \"" ++ name ++
      "\",\n  \"version\": \"0.1.0\",\n  \"description\": \"Description of " ++ name ++
      "\",\n  \"author\": \"\",\n  \"license\": \"MIT\",\n  \"main\": \"src/main.py\",\n  \"dependencies\": \x7b\x7d\n\x7d\n") ∧
    jsonValid (skillJsonContent "\"") = false ∧
    jsonValid (skillJsonContent "my-skill") = true := by
  exact ⟨fun _ => rfl, by decide, by decide⟩

/-- Claim C10, counterexample to the claim as stated: a name containing a
double quote whose generated `skill.json` is nevertheless syntactically
valid JSON (the spliced text closes the string and forms extra
well-formed members). -/
theorem C10_counterexample :
    '"' ∈ ("a\", \"b\": \"c" : String).data ∧
    jsonValid (skillJsonContent "a\", \"b\": \"c") = true := by
  exact ⟨by decide, by decide⟩

/-- Claim C5 (confirmed): re-running the scaffold with the same name and
target on the filesystem produced by a first run succeeds (exit status 0),
overwrites every template file with content identical to the first run,
and leaves the filesystem state exactly as after the single run
(idempotence of content); the printed report is also identical. -/
theorem C5_idempotent (cwd name : String) (base : Option String) :
    (main cleanOrc cwd FS.empty (some (name, base))).exitCode = 0 ∧
    (main cleanOrc cwd (main cleanOrc cwd FS.empty (some (name, base))).fs
        (some (name, base))).exitCode = 0 ∧
    (main cleanOrc cwd (main cleanOrc cwd FS.empty (some (name, base))).fs
        (some (name, base))).fs =
      (main cleanOrc cwd FS.empty (some (name, base))).fs ∧
    (main cleanOrc cwd (main cleanOrc cwd FS.empty (some (name, base))).fs
        (some (name, base))).out =
      (main cleanOrc cwd FS.empty (some (name, base))).out ∧
    (main cleanOrc cwd (main cleanOrc cwd FS.empty (some (name, base))).fs
        (some (name, base))).err =
      (main cleanOrc cwd FS.empty (some (name, base))).err := by
  have h1 := main_clean cwd name base FS.empty (fun e _ => rfl)
  have hpres : ∀ e ∈ absEntries name (skillDirOf cwd name base),
      (main cleanOrc cwd FS.empty (some (name, base))).fs e.1 = some e.2 := by
    intro e he
    rw [h1]
    exact setFold_mem (absKeys_nodup name _) he
  have h2 := main_present cwd name base
    (main cleanOrc cwd FS.empty (some (name, base))).fs hpres
  rw [h2, h1]
  exact ⟨rfl, rfl, rfl, rfl, rfl⟩

/-- Claim C7 (confirmed): on success the program emits exactly one
progress line per created entry, in creation order, followed by the
summary line and the next-steps hint; on a failing run the full success
report is never emitted — stdout stops after the progress lines of the
entries created before the failure — and the run instead terminates with
the single error line on stderr. -/
theorem C7_output_report (cwd name : String) (base : Option String) :
    ((main cleanOrc cwd FS.empty (some (name, base))).out =
      (scaffoldPlan name).map (msgOf (skillDirOf cwd name base)) ++
        successTrailer name (skillDirOf cwd name base) ∧
     (main cleanOrc cwd FS.empty (some (name, base))).err = []) ∧
    (∀ (orc : Nat → Option String) (k : Nat) (m : String),
      k < 14 → orc k = some m → (∀ j, j < k → orc j = none) →
      (main orc cwd FS.empty (some (name, base))).err = ["❌ Error: " ++ m] ∧
      (main orc cwd FS.empty (some (name, base))).out =
        ((scaffoldPlan name).map (msgOf (skillDirOf cwd name base))).take k ∧
      (main orc cwd FS.empty (some (name, base))).out ≠
        (scaffoldPlan name).map (msgOf (skillDirOf cwd name base)) ++
          successTrailer name (skillDirOf cwd name base)) := by
  constructor
  · have h1 := main_clean cwd name base FS.empty (fun e _ => rfl)
    rw [h1]
    exact ⟨rfl, rfl⟩
  · intro orc k m hk hfail hpre
    have h2 := main_fail cwd name base FS.empty orc k m hk hfail hpre (fun e _ => rfl)
    rw [h2]
    refine ⟨rfl, rfl, ?_⟩
    intro heq
    have hlen := congrArg List.length heq
    rw [List.length_take, List.length_append, List.length_map] at hlen
    have hplan : (scaffoldPlan name).length = 14 := rfl
    have htr : (successTrailer name (skillDirOf cwd name base)).length = 6 := rfl
    rw [hplan, htr] at hlen
    have hmin : k ⊓ 14 = k := min_eq_left (Nat.le_of_lt hk)
    rw [hmin] at hlen
    omega

/-- Claim C7, witness: the report shape at a concrete name, both for a
clean run and for a run whose second filesystem call raises. -/
theorem C7_witness :
    ((main cleanOrc "/home/u" FS.empty (some ("my-skill", none))).out =
      (scaffoldPlan "my-skill").map (msgOf (skillDirOf "/home/u" "my-skill" none)) ++
        successTrailer "my-skill" (skillDirOf "/home/u" "my-skill" none) ∧
     (main cleanOrc "/home/u" FS.empty (some ("my-skill", none))).err = []) ∧
    (1 : Nat) < 14 ∧
    ((main (fun i => if i = 1 then some "oops" else none) "/home/u" FS.empty
        (some ("my-skill", none))).err = ["❌ Error: " ++ "oops"] ∧
     (main (fun i => if i = 1 then some "oops" else none) "/home/u" FS.empty
        (some ("my-skill", none))).out =
       ((scaffoldPlan "my-skill").map
         (msgOf (skillDirOf "/home/u" "my-skill" none))).take 1 ∧
     (main (fun i => if i = 1 then some "oops" else none) "/home/u" FS.empty
        (some ("my-skill", none))).out ≠
       (scaffoldPlan "my-skill").map (msgOf (skillDirOf "/home/u" "my-skill" none)) ++
         successTrailer "my-skill" (skillDirOf "/home/u" "my-skill" none)) :=
  ⟨(C7_output_report "/home/u" "my-skill" none).1,
   by decide,
   (C7_output_report "/home/u" "my-skill" none).2
     (fun i => if i = 1 then some "oops" else none) 1 "oops" (by decide) rfl
     (by intro j hj
         cases j with
         | zero => rfl
         | succ jj => omega)⟩

end InitSkill
